import Mathlib

/-!
# Verification of the "Chat with your Docs (RAG)" client

Shallow embedding of `src/frontend/src/App.jsx` (the React client) and, for
the backend index operations that the repository exposes only through the
specification, definitions modelled from the spec.  All functions are
translated directly from the source; stateful handlers become pure functions
from an explicit state (plus the outcome of the awaited network call) to the
updated state.
-/

namespace RagApp

/-- A JavaScript error value, as observed in a `catch` block: we keep the
`name` (used by the handlers to recognise `AbortError`) and the message
produced by `String(e)`. -/
structure JsError where
  name : String
  message : String
  deriving Repr, DecidableEq

/-- A JSON value as far as the client inspects one: the client only ever
checks `typeof v === "number"` on `data.chunks_indexed`, so we distinguish
numbers from every other shape (string, boolean, null, or a missing field,
i.e. `undefined`). -/
inductive JsValue where
  | num (n : Int)
  | str (s : String)
  | boolv (b : Bool)
  | nul
  | undef
  deriving Repr, DecidableEq

/-- One chat message as stored in the `messages` state:
`{id, role: 'user'|'assistant'|'system', content, ts}` (App.jsx line 50). -/
structure ChatMsg where
  id : String
  role : String
  content : String
  ts : Nat
  deriving Repr, DecidableEq

/-- A history entry sent to the backend: the projection `{role, content}`
of a chat message (App.jsx line 306). -/
structure HistoryEntry where
  role : String
  content : String
  deriving Repr, DecidableEq

/-- One entry of the documents list returned by `GET /documents`:
`{file_name, chunks}` (App.jsx line 26). -/
structure DocEntry where
  file_name : String
  chunks : Nat
  deriving Repr, DecidableEq

/-- The body of the `POST /chat` request built by `send`
(App.jsx lines 316-321). -/
structure ChatRequest where
  message : String
  top_k : Nat
  history : List HistoryEntry
  selected_files : Option (List String)
  deriving Repr, DecidableEq

/-- The client state components that the handlers under verification read or
write.  `chunksIndexed` is `Option Int` because the code stores either a
number or `null`. -/
structure AppState where
  messages : List ChatMsg
  input : String
  uploadMsg : String
  docs : List DocEntry
  selectedFiles : List String
  docSearch : String
  backendOk : Bool
  chunksIndexed : Option Int
  loading : Bool
  deriving Repr, DecidableEq

/-- The two `localStorage` keys the client uses: `rag_chat_history_v1` and
`rag_selected_files_v1`; `none` models an absent key. -/
structure LocalStorage where
  chatHistoryKey : Option String
  selectedKey : Option String
  deriving Repr, DecidableEq

/-- JavaScript `Array.prototype.slice(-n)`: the last `n` elements (the whole
list when it is shorter than `n`). -/
def sliceLast (n : Nat) (l : List α) : List α :=
  l.drop (l.length - n)

/-- JavaScript `String.prototype.trim()`: strip whitespace from both ends,
modelled over the character list of the string. -/
def jsTrim (s : String) : String :=
  ⟨((s.data.dropWhile Char.isWhitespace).reverse.dropWhile
      Char.isWhitespace).reverse⟩

/-- The role filter of App.jsx line 304: keep only user and assistant
messages. -/
def isUserOrAssistant (m : ChatMsg) : Bool :=
  m.role = "user" || m.role = "assistant"

/-- The `{role, content}` projection of App.jsx line 306. -/
def toHistoryEntry (m : ChatMsg) : HistoryEntry :=
  ⟨m.role, m.content⟩

/-- `send` (App.jsx lines 290-324), up to the point where the request is
handed to `fetchWithTimeout`.  Inputs beyond the state: the fresh `uid()`
and `Date.now()` values.  Returns the request issued (`none` when the guard
`!q || loading || !backendOk` fires) together with the message list after
`setMessages(nextMessages)`. -/
def send (s : AppState) (newId : String) (now : Nat) :
    Option ChatRequest × List ChatMsg :=
  let q := jsTrim s.input
  if q = "" ∨ s.loading = true ∨ s.backendOk = false then
    (none, s.messages)
  else
    let userMsg : ChatMsg := ⟨newId, "user", q, now⟩
    let nextMessages := s.messages ++ [userMsg]
    let history :=
      (sliceLast 12 (nextMessages.filter isUserOrAssistant)).map toHistoryEntry
    let selected_files :=
      if s.selectedFiles.length > 0 then some s.selectedFiles else none
    (some ⟨q, 5, history, selected_files⟩, nextMessages)

/-- `toggleSelected` (App.jsx lines 139-144): remove the name when present,
append it otherwise. -/
def toggleSelected (prev : List String) (fileName : String) : List String :=
  if prev.contains fileName then prev.filter (fun x => x ≠ fileName)
  else prev ++ [fileName]

/-! ## The timeout wrapper and the catch handlers -/

/-- How the underlying `fetch` promise stands when the `fetchWithTimeout`
timer fires: settled with a response (carrying `res.ok` and the body),
rejected with an error, or still unsettled. -/
inductive FetchOutcome where
  | resolved (ok : Bool) (body : String)
  | rejected (e : JsError)
  | unsettled
  deriving Repr, DecidableEq

/-- The error produced by `AbortController.abort()` when the timer of
`fetchWithTimeout` fires. -/
def abortError : JsError := ⟨"AbortError", "AbortError: signal is aborted"⟩

/-- `fetchWithTimeout` (App.jsx lines 13-17), with the asynchronous race
made explicit: given how the wrapped fetch stands at the timeout horizon,
the call settles with the response, the fetch error, or — when the fetch is
still pending at the horizon — the abort error; it never stays pending. -/
def fetchWithTimeout (outcome : FetchOutcome) : Except JsError (Bool × String) :=
  match outcome with
  | .resolved ok body => .ok (ok, body)
  | .rejected e => .error e
  | .unsettled => .error abortError

/-- Default `timeoutMs` parameter of `fetchWithTimeout` (App.jsx line 13). -/
def defaultTimeoutMs : Nat := 15000

/-- Every `fetchWithTimeout` call site in App.jsx with the `timeoutMs` it
passes: health 5000 (line 111), documents 10000 (line 125), upload 60000
(line 171), delete 15000 (line 213), clear index 20000 (line 254), chat
30000 (line 323).  These are all the HTTP requests the client issues. -/
def clientCallTimeouts : List (String × Nat) :=
  [("health", 5000), ("documents", 10000), ("upload", 60000),
   ("delete", 15000), ("clearIndex", 20000), ("chat", 30000)]

/-- The `catch` handler of `send` (App.jsx line 346): the visible error text
appended as an assistant message. -/
def sendCatchText (e : JsError) : String :=
  if e.name = "AbortError" then "Timeout: backend ne répond pas." else e.message

/-- The `catch` handler of `uploadFile` (App.jsx line 196). -/
def uploadCatchText (e : JsError) : String :=
  if e.name = "AbortError" then "Timeout upload (backend ne répond pas)."
  else e.message

/-- The `catch` handler of `deleteDoc` (App.jsx line 240). -/
def deleteCatchText (e : JsError) : String :=
  if e.name = "AbortError" then "Timeout suppression (backend ne répond pas)."
  else e.message

/-- The `catch` handler of `clearIndex` (App.jsx line 280). -/
def clearCatchText (e : JsError) : String :=
  if e.name = "AbortError" then "Timeout clear index (backend ne répond pas)."
  else e.message

/-! ## refreshHealth -/

/-- What the awaited part of `refreshHealth` observes: either the fetch
itself failed (network error, or the abort error on timeout), or a response
arrived carrying `res.ok` and — when the body parsed as JSON — the value of
`data.chunks_indexed` (`none` models a body that `res.json()` rejects). -/
inductive HealthProbe where
  | fetchFailed (e : JsError)
  | response (ok : Bool) (chunks : Option JsValue)
  deriving Repr, DecidableEq

/-- The `try` block of `refreshHealth` (App.jsx lines 110-115): throws on a
fetch failure, a non-ok response, or an unparsable body; otherwise yields
the new `(backendOk, chunksIndexed)` pair, keeping the number only when
`typeof data.chunks_indexed === "number"`. -/
def refreshHealthTry (p : HealthProbe) : Except JsError (Bool × Option Int) :=
  match p with
  | .fetchFailed e => .error e
  | .response ok chunks =>
      if !ok then .error ⟨"Error", "health not ok"⟩
      else
        match chunks with
        | none => .error ⟨"SyntaxError", "Unexpected token in JSON"⟩
        | some v =>
            .ok (true, match v with | .num n => some n | _ => none)

/-- `refreshHealth` (App.jsx lines 109-120): the `try`/`catch` around
`refreshHealthTry`; every thrown error degrades the state to
`(backendOk := false, chunksIndexed := null)`. -/
def refreshHealth (p : HealthProbe) : Bool × Option Int :=
  match refreshHealthTry p with
  | .ok r => r
  | .error _ => (false, none)

/-! ## Selection maintenance and resetChat -/

/-- The selection cleanup of a successful `refreshDocs` (App.jsx line 131):
keep only the selected names that still appear in the fetched list. -/
def refreshDocsSelection (files : List DocEntry) (prev : List String) :
    List String :=
  prev.filter (fun f => files.any (fun d => d.file_name = f))

/-- What the awaited part of `refreshDocs` observes: the fetch failed
(network error, or the abort error on timeout), the body did not parse as
JSON, or a parsed response whose `files` field is the given list (`none`
models a response without a `files` field, defaulted by `data.files || []`).
`refreshDocs` never checks `res.ok`. -/
inductive DocsProbe where
  | fetchFailed (e : JsError)
  | badJson
  | response (files : Option (List DocEntry))
  deriving Repr, DecidableEq

/-- The state `refreshDocs` leaves behind: the docs list, the selection,
the `docsLoading` flag (reset in `finally`), and the visible error value it
surfaces — which is always `none`, because its `catch` block is
`// ignore` (App.jsx lines 132-134). -/
structure DocsRefreshResult where
  docs : List DocEntry
  selectedFiles : List String
  docsLoading : Bool
  visibleError : Option String
  deriving Repr, DecidableEq

/-- `refreshDocs` (App.jsx lines 122-137): on a parsed response it stores
`data.files || []` and cleans the selection; on any error — including the
abort error of a timeout — the `catch` block ignores it, so docs and
selection are unchanged and no error value is surfaced; `finally` resets
`docsLoading`. -/
def refreshDocs (p : DocsProbe) (docs : List DocEntry) (sel : List String) :
    DocsRefreshResult :=
  match p with
  | .response files =>
      let fs := files.getD []
      ⟨fs, refreshDocsSelection fs sel, false, none⟩
  | .fetchFailed _ => ⟨docs, sel, false, none⟩
  | .badJson => ⟨docs, sel, false, none⟩

/-- The selection update of a successful `deleteDoc` (App.jsx line 236):
drop the deleted name. -/
def deleteDocSelection (prev : List String) (fileName : String) :
    List String :=
  prev.filter (fun x => x ≠ fileName)

/-- The selection update of a successful `clearIndex` (App.jsx line 276). -/
def clearIndexSelection : List String := []

/-- `resetChat` (App.jsx lines 357-366): clears `messages`, `input` and
`uploadMsg`, removes the persisted chat-history key, and touches nothing
else. -/
def resetChat (s : AppState) (st : LocalStorage) : AppState × LocalStorage :=
  ({ s with messages := [], input := "", uploadMsg := "" },
   { st with chatHistoryKey := none })

/-! ## The backend Vector Index, modelled from the spec

The repository ships only the client under `src/`; the backend that owns
ingestion, `delete_document` and `clear` is described by the specification
(sections 3, 4.2, 4.4) but its code is absent.  The definitions below are
therefore modelled from the spec, not translated from source. -/

/-- Modelled from the spec: a Chunk record of the Vector Index (spec section 3)
— the backend code is missing from `src/`.  `id` globally unique, `file_name`
the owning document, `chunk_index` 0-based within the document. -/
structure Chunk where
  id : Nat
  file_name : String
  chunk_index : Nat
  text : String
  deriving Repr, DecidableEq

/-- Modelled from the spec: the Vector Index as the set of stored chunks
(spec section 3: "a document is the set of chunks sharing its
`file_name`") — the backend code is missing from `src/`. -/
abbrev VectorIndex := List Chunk

/-- Modelled from the spec: a document exists iff some stored chunk carries
its `file_name` (spec section 3) — the backend code is missing from `src/`. -/
def hasDocument (idx : VectorIndex) (f : String) : Bool :=
  idx.any (fun c => c.file_name = f)

/-- Modelled from the spec: the chunk count stored for a `file_name`
(spec section 4.6 derives it by grouping chunks) — the backend code is
missing from `src/`. -/
def chunkCount (idx : VectorIndex) (f : String) : Nat :=
  (idx.filter (fun c => c.file_name = f)).length

/-- Modelled from the spec: `delete_document(file_name) → count deleted`
(spec section 4.2), removing every chunk of that document and reporting the
true number removed, 0 when the document is absent — the backend code is
missing from `src/`. -/
def delete_document (idx : VectorIndex) (f : String) : VectorIndex × Nat :=
  (idx.filter (fun c => c.file_name ≠ f), chunkCount idx f)

/-- Modelled from the spec: `clear() → count deleted` removes all chunks
(spec section 4.2) — the backend code is missing from `src/`. -/
def clear (idx : VectorIndex) : VectorIndex × Nat := ([], idx.length)

/-- Modelled from the spec: the errors of the ingestion path (spec sections
4.1, 4.4, 7) — the backend code is missing from `src/`. -/
inductive IngestError where
  | duplicateDocument
  | emptyInput
  deriving Repr, DecidableEq

/-- Modelled from the spec: `ingest(file_name, raw_text)` (spec section 4.4)
— the backend code is missing from `src/`.  The chunker output is taken as
input (`chunkTexts`); an empty chunking (empty/whitespace-only text, spec
section 4.1) raises `EmptyInputError`, an existing `file_name` raises
`DuplicateDocumentError` and commits nothing; otherwise chunks with
contiguous 0-based `chunk_index` and fresh ids from `firstId` are inserted
atomically and their number returned. -/
def ingest (idx : VectorIndex) (f : String) (chunkTexts : List String)
    (firstId : Nat) : Except IngestError (VectorIndex × Nat) :=
  if chunkTexts.isEmpty then .error .emptyInput
  else if hasDocument idx f then .error .duplicateDocument
  else
    let newChunks := chunkTexts.enum.map
      (fun p => Chunk.mk (firstId + p.1) f p.1 p.2)
    .ok (idx ++ newChunks, newChunks.length)

/-! ## Concrete sample data used to exercise the theorems -/

/-- A concrete client state: three messages (one of them a system line), one
indexed document which is selected, a healthy backend, no request in
flight. -/
def sampleState : AppState :=
  { messages := [⟨"m1", "system", "Document indexé", 0⟩,
                 ⟨"m2", "user", "hi", 1⟩,
                 ⟨"m3", "assistant", "yo", 2⟩]
    input := "capital?"
    uploadMsg := ""
    docs := [⟨"a.txt", 3⟩]
    selectedFiles := ["a.txt"]
    docSearch := ""
    backendOk := true
    chunksIndexed := some 3
    loading := false }

/-- The message list after `send` runs on `sampleState`. -/
def sampleMsgs : List ChatMsg :=
  sampleState.messages ++ [⟨"id9", "user", "capital?", 100⟩]

/-- The chat request `send` issues from `sampleState`. -/
def sampleReq : ChatRequest :=
  ⟨"capital?", 5,
   [⟨"user", "hi"⟩, ⟨"assistant", "yo"⟩, ⟨"user", "capital?"⟩],
   some ["a.txt"]⟩

/-! ## Theorems -/

/-- Shared helper: what a successful `send` must look like, read off the
definition. -/
theorem send_some_spec {s : AppState} {newId : String} {now : Nat}
    {req : ChatRequest} {msgs : List ChatMsg}
    (h : send s newId now = (some req, msgs)) :
    jsTrim s.input ≠ "" ∧ s.loading = false ∧ s.backendOk = true ∧
    msgs = s.messages ++ [⟨newId, "user", jsTrim s.input, now⟩] ∧
    req = ⟨jsTrim s.input, 5,
      (sliceLast 12 (msgs.filter isUserOrAssistant)).map toHistoryEntry,
      if s.selectedFiles.length > 0 then some s.selectedFiles else none⟩ := by
  by_cases hguard :
      jsTrim s.input = "" ∨ s.loading = true ∨ s.backendOk = false
  · simp only [send, if_pos hguard] at h
    exact absurd (congrArg Prod.fst h) (by simp)
  · simp only [send, if_neg hguard] at h
    push_neg at hguard
    obtain ⟨h1, h2, h3⟩ := hguard
    injection h with hreq hmsgs
    injection hreq with hreq
    subst hmsgs
    exact ⟨h1, by simpa using h2, by simpa using h3, rfl, hreq.symm⟩

/-- C1: the chat request built by `send` carries `selected_files = null`
exactly when the selection is empty, the full selection list otherwise, and
never an explicitly empty non-null list. -/
theorem send_selected_files_null_iff_empty
    (s : AppState) (newId : String) (now : Nat)
    (req : ChatRequest) (msgs : List ChatMsg)
    (h : send s newId now = (some req, msgs)) :
    (s.selectedFiles = [] → req.selected_files = none) ∧
    (s.selectedFiles ≠ [] → req.selected_files = some s.selectedFiles) ∧
    req.selected_files ≠ some [] := by
  obtain ⟨-, -, -, -, hreq⟩ := send_some_spec h
  have hsel : req.selected_files =
      if s.selectedFiles.length > 0 then some s.selectedFiles else none := by
    rw [hreq]
  rw [hsel]
  refine ⟨fun he => by simp [he], fun hne => by simp [List.length_pos.mpr hne],
    ?_⟩
  by_cases hl : s.selectedFiles.length > 0
  · rw [if_pos hl]
    intro habs
    rw [Option.some.inj habs] at hl
    simp at hl
  · rw [if_neg hl]
    simp

/-- C1 witness. -/
theorem send_selected_files_null_iff_empty_witness :
    (ChatRequest.mk "capital?" 5
        [⟨"user", "hi"⟩, ⟨"assistant", "yo"⟩, ⟨"user", "capital?"⟩]
        (some ["a.txt"])).selected_files ≠ some [] :=
  (send_selected_files_null_iff_empty sampleState "id9" 100 _ sampleMsgs
    (by decide)).2.2

/-- C2: the `history` field of a chat request contains only user/assistant
entries (system lines are filtered out), is the `{role, content}` projection
of a suffix of the filtered message list (hence preserves the original
most-recent-last order), and has length at most 12. -/
theorem send_history_is_bounded_suffix
    (s : AppState) (newId : String) (now : Nat)
    (req : ChatRequest) (msgs : List ChatMsg)
    (h : send s newId now = (some req, msgs)) :
    (∀ e ∈ req.history, e.role = "user" ∨ e.role = "assistant") ∧
    req.history.length ≤ 12 ∧
    req.history <:+ (msgs.filter isUserOrAssistant).map toHistoryEntry ∧
    List.Sublist req.history (msgs.map toHistoryEntry) := by
  obtain ⟨-, -, -, -, hreq⟩ := send_some_spec h
  have hhist : req.history =
      (sliceLast 12 (msgs.filter isUserOrAssistant)).map toHistoryEntry := by
    rw [hreq]
  rw [hhist]
  refine ⟨?_, ?_, ?_, ?_⟩
  · intro e he
    simp only [List.mem_map] at he
    obtain ⟨m, hm, rfl⟩ := he
    have hm' : m ∈ msgs.filter isUserOrAssistant :=
      (List.drop_suffix _ _).subset hm
    have hrole := List.of_mem_filter hm'
    simp only [isUserOrAssistant, Bool.or_eq_true, decide_eq_true_eq] at hrole
    exact hrole
  · rw [List.length_map, sliceLast, List.length_drop]
    omega
  · exact (List.drop_suffix _ _).map _
  · exact ((List.drop_suffix _ _).sublist.map _).trans
      ((List.filter_sublist _).map _)

/-- C2 witness. -/
theorem send_history_is_bounded_suffix_witness :
    (∀ e ∈ sampleReq.history, e.role = "user" ∨ e.role = "assistant") ∧
    sampleReq.history.length ≤ 12 :=
  let r := send_history_is_bounded_suffix sampleState "id9" 100 sampleReq
    sampleMsgs (by decide)
  ⟨r.1, r.2.1⟩

/-- C3: `send` issues no request and leaves the message list unchanged when
the trimmed input is empty, a request is in flight, or the backend is marked
down; an issued request carries the non-empty trimmed input as `message` and
`top_k = 5`, which is positive and at most the cap of 20. -/
theorem send_guard_and_request_fields
    (s : AppState) (newId : String) (now : Nat) :
    ((jsTrim s.input = "" ∨ s.loading = true ∨ s.backendOk = false) →
      send s newId now = (none, s.messages)) ∧
    (∀ req msgs, send s newId now = (some req, msgs) →
      req.message = jsTrim s.input ∧ req.message ≠ "" ∧
      req.top_k = 5 ∧ 0 < req.top_k ∧ req.top_k ≤ 20) := by
  constructor
  · intro hguard
    simp only [send, if_pos hguard]
  · intro req msgs h
    obtain ⟨hne, -, -, -, hreq⟩ := send_some_spec h
    have hmsg : req.message = jsTrim s.input := by rw [hreq]
    have htop : req.top_k = 5 := by rw [hreq]
    refine ⟨hmsg, ?_, htop, by omega, by omega⟩
    rw [hmsg]
    exact hne

/-- C3 witness: the guard fires on a whitespace-only input, and the concrete
request from `sampleState` carries the trimmed message and `top_k = 5`. -/
theorem send_guard_and_request_fields_witness :
    send { sampleState with input := "   " } "id9" 100 =
      (none, sampleState.messages) ∧
    (sampleReq.message = jsTrim sampleState.input ∧ sampleReq.message ≠ "" ∧
      sampleReq.top_k = 5 ∧ 0 < sampleReq.top_k ∧ sampleReq.top_k ≤ 20) :=
  ⟨(send_guard_and_request_fields { sampleState with input := "   " } "id9"
      100).1 (by left; decide),
   (send_guard_and_request_fields sampleState "id9" 100).2 sampleReq
      sampleMsgs (by decide)⟩

/-- C4 counterexample: the claim says each caller converts the abort error
into a visible error value, but `refreshDocs` does not: at a concrete state,
a fetch that times out (surfacing the abort error) leaves docs and selection
unchanged and produces no visible error value at all — its `catch` block is
`// ignore`. -/
theorem refreshDocs_ignores_abort_error :
    refreshDocs (.fetchFailed abortError) [⟨"a.txt", 3⟩] ["a.txt"] =
      ⟨[⟨"a.txt", 3⟩], ["a.txt"], false, none⟩ := rfl

/-- C4 (amended): every boundary call goes through `fetchWithTimeout` with
a finite positive per-operation timeout (default 15000 ms); a fetch still
unsettled at the timeout horizon settles as the abort error, so no boundary
call hangs.  The callers `send`, `uploadFile`, `deleteDoc` and `clearIndex`
convert the abort error into a visible timeout message, and `refreshHealth`
degrades the visible health state to backend-down; `refreshDocs` alone
swallows the error, surfacing no visible error value and leaving its state
unchanged. -/
theorem timeouts_finite_and_abort_surfaced_per_caller :
    defaultTimeoutMs = 15000 ∧
    clientCallTimeouts.all (fun p => decide (0 < p.2)) = true ∧
    clientCallTimeouts.lookup "health" = some 5000 ∧
    clientCallTimeouts.lookup "documents" = some 10000 ∧
    clientCallTimeouts.lookup "upload" = some 60000 ∧
    clientCallTimeouts.lookup "delete" = some 15000 ∧
    clientCallTimeouts.lookup "clearIndex" = some 20000 ∧
    clientCallTimeouts.lookup "chat" = some 30000 ∧
    fetchWithTimeout .unsettled = .error abortError ∧
    abortError.name = "AbortError" ∧
    sendCatchText abortError = "Timeout: backend ne répond pas." ∧
    uploadCatchText abortError = "Timeout upload (backend ne répond pas)." ∧
    deleteCatchText abortError =
      "Timeout suppression (backend ne répond pas)." ∧
    clearCatchText abortError =
      "Timeout clear index (backend ne répond pas)." ∧
    refreshHealth (.fetchFailed abortError) = (false, none) ∧
    (∀ docs sel, refreshDocs (.fetchFailed abortError) docs sel =
      ⟨docs, sel, false, none⟩) := by
  refine ⟨?_, ?_, ?_, ?_, ?_, ?_, ?_, ?_, ?_, ?_, ?_, ?_, ?_, ?_, ?_,
    fun docs sel => rfl⟩ <;> rfl

/-- C5: `refreshHealth` never throws: every failing probe outcome (fetch
error or timeout, non-ok response, unparsable body) degrades the state to
`(backendOk := false, chunksIndexed := null)`; a successful response keeps
`chunks_indexed` only when it is a number, setting `chunksIndexed := null`
(with `backendOk := true`) on any non-numeric value. -/
theorem refreshHealth_total_and_degrading :
    (∀ e, refreshHealth (.fetchFailed e) = (false, none)) ∧
    (∀ c, refreshHealth (.response false c) = (false, none)) ∧
    refreshHealth (.response true none) = (false, none) ∧
    (∀ n, refreshHealth (.response true (some (.num n))) = (true, some n)) ∧
    (∀ t, refreshHealth (.response true (some (.str t))) = (true, none)) ∧
    (∀ b, refreshHealth (.response true (some (.boolv b))) = (true, none)) ∧
    refreshHealth (.response true (some .nul)) = (true, none) ∧
    refreshHealth (.response true (some .undef)) = (true, none) :=
  ⟨fun _ => rfl, fun _ => rfl, rfl, fun _ => rfl, fun _ => rfl, fun _ => rfl,
   rfl, rfl⟩

/-- Shared helper: a document that is absent stores no chunks. -/
theorem chunkCount_eq_zero {idx : VectorIndex} {f : String}
    (h : hasDocument idx f = false) : chunkCount idx f = 0 := by
  simp only [hasDocument, List.any_eq_false, decide_eq_true_eq] at h
  simp only [chunkCount, List.length_eq_zero, List.filter_eq_nil_iff,
    decide_eq_true_eq]
  exact h

/-- C6: re-uploading an existing `file_name` is rejected with
`DuplicateDocumentError` (not merged or overwritten), and the chunk count
stored for that `file_name` stays exactly what the first upload
committed. -/
theorem ingest_rejects_duplicate
    (idx idx' : VectorIndex) (f : String) (ts ts' : List String)
    (i j n : Nat)
    (hfirst : ingest idx f ts i = .ok (idx', n))
    (hne : ts' ≠ []) :
    ingest idx' f ts' j = .error .duplicateDocument ∧
    chunkCount idx' f = n := by
  simp only [ingest] at hfirst
  by_cases h1 : ts.isEmpty = true
  · rw [if_pos h1] at hfirst
    exact absurd hfirst (by simp)
  · rw [if_neg h1] at hfirst
    by_cases h2 : hasDocument idx f = true
    · rw [if_pos h2] at hfirst
      exact absurd hfirst (by simp)
    · rw [if_neg h2] at hfirst
      injection hfirst with hfirst
      injection hfirst with hidx hn
      subst hidx
      subst hn
      have hall : ∀ c ∈ ts.enum.map
          (fun p => Chunk.mk (i + p.1) f p.1 p.2), c.file_name = f := by
        intro c hc
        simp only [List.mem_map] at hc
        obtain ⟨p, -, rfl⟩ := hc
        rfl
      have hlen : (ts.enum.map
          (fun p => Chunk.mk (i + p.1) f p.1 p.2)).length = ts.length := by
        rw [List.length_map, List.enum_length]
      have hcount0 : chunkCount idx f = 0 :=
        chunkCount_eq_zero (by simpa using h2)
      constructor
      · simp only [ingest]
        rw [if_neg (by simpa [List.isEmpty_iff] using hne), if_pos ?hdoc]
        case hdoc =>
          have hts : ts ≠ [] := by simpa [List.isEmpty_iff] using h1
          have hnn : (ts.enum.map
              (fun p => Chunk.mk (i + p.1) f p.1 p.2)) ≠ [] := by
            rw [← List.length_pos, hlen]
            exact List.length_pos.mpr hts
          obtain ⟨c, hc⟩ := List.exists_mem_of_ne_nil _ hnn
          simp only [hasDocument, List.any_eq_true, decide_eq_true_eq]
          exact ⟨c, List.mem_append_right _ hc, hall c hc⟩
      · have hfself : List.filter (fun c => decide (c.file_name = f))
            (ts.enum.map (fun p => Chunk.mk (i + p.1) f p.1 p.2)) =
            ts.enum.map (fun p => Chunk.mk (i + p.1) f p.1 p.2) :=
          List.filter_eq_self.mpr (fun c hc => by simp [hall c hc])
        have h0 : (List.filter (fun c => decide (c.file_name = f))
            idx).length = 0 := by
          simpa [chunkCount] using hcount0
        simp only [chunkCount, List.filter_append, List.length_append,
          hfself, h0]
        omega

/-- C6 witness: a concrete second upload of "x" is rejected and the chunk
count of "x" stays at 1. -/
theorem ingest_rejects_duplicate_witness :
    ingest [Chunk.mk 0 "x" 0 "hello"] "x" ["again"] 7 =
      .error .duplicateDocument ∧
    chunkCount [Chunk.mk 0 "x" 0 "hello"] "x" = 1 :=
  ingest_rejects_duplicate [] [Chunk.mk 0 "x" 0 "hello"] "x" ["hello"]
    ["again"] 0 7 1 (by rfl) (by simp)

/-- C7: `delete_document` is idempotent: deleting an absent `file_name`
returns 0 (and is not an error — the operation is total and leaves the
index unchanged); for a present document the first delete returns a
positive count and a second delete returns 0; `clear()` on an empty index
returns 0. -/
theorem delete_document_idempotent (idx : VectorIndex) (f : String) :
    (hasDocument idx f = false → delete_document idx f = (idx, 0)) ∧
    (hasDocument idx f = true →
      0 < (delete_document idx f).2 ∧
      (delete_document (delete_document idx f).1 f).2 = 0) ∧
    (clear ([] : VectorIndex)).2 = 0 := by
  refine ⟨fun h => ?_, fun h => ⟨?_, ?_⟩, rfl⟩
  · have h' : ∀ c ∈ idx, ¬c.file_name = f := by
      simpa [hasDocument, List.any_eq_false] using h
    simp only [delete_document, chunkCount_eq_zero h, Prod.mk.injEq,
      and_true]
    exact List.filter_eq_self.mpr (fun c hc => by simp [h' c hc])
  · simp only [hasDocument, List.any_eq_true, decide_eq_true_eq] at h
    obtain ⟨c, hc, hcf⟩ := h
    simp only [delete_document, chunkCount]
    exact List.length_pos_of_mem (List.mem_filter.mpr ⟨hc, by simp [hcf]⟩)
  · simp only [delete_document]
    apply chunkCount_eq_zero
    simp only [hasDocument, List.any_eq_false, decide_eq_true_eq]
    intro c hc
    simpa using List.of_mem_filter hc

/-- C7 witness: a concrete index with one chunk of "x": deleting "y" gives
0 and changes nothing, deleting "x" twice gives a positive count then 0,
and clearing the empty index gives 0. -/
theorem delete_document_idempotent_witness :
    (delete_document [Chunk.mk 0 "x" 0 "hello"] "y" =
      ([Chunk.mk 0 "x" 0 "hello"], 0)) ∧
    (0 < (delete_document [Chunk.mk 0 "x" 0 "hello"] "x").2 ∧
      (delete_document
        (delete_document [Chunk.mk 0 "x" 0 "hello"] "x").1 "x").2 = 0) ∧
    (clear ([] : VectorIndex)).2 = 0 :=
  ⟨(delete_document_idempotent [Chunk.mk 0 "x" 0 "hello"] "y").1 (by decide),
   (delete_document_idempotent [Chunk.mk 0 "x" 0 "hello"] "x").2.1
     (by decide),
   (delete_document_idempotent [Chunk.mk 0 "x" 0 "hello"] "x").2.2⟩

/-- C8: the selection stays consistent with the document list: after a
successful `refreshDocs` every selected name is the `file_name` of some
fetched document, after a successful `deleteDoc f` the name `f` is no
longer selected, and after a successful `clearIndex` the selection is
empty. -/
theorem selection_consistent_with_docs
    (files : List DocEntry) (prev sel : List String) (fname : String) :
    (∀ f ∈ refreshDocsSelection files prev,
      ∃ d ∈ files, d.file_name = f) ∧
    fname ∉ deleteDocSelection sel fname ∧
    clearIndexSelection = [] := by
  refine ⟨?_, ?_, rfl⟩
  · intro f hf
    have := List.of_mem_filter hf
    simpa [List.any_eq_true] using this
  · intro habs
    have := List.of_mem_filter habs
    simp at this

/-- C8 witness. -/
theorem selection_consistent_with_docs_witness :
    (∀ f ∈ refreshDocsSelection [⟨"a.txt", 3⟩] ["a.txt", "gone.txt"],
      ∃ d ∈ [DocEntry.mk "a.txt" 3], d.file_name = f) ∧
    "b.txt" ∉ deleteDocSelection ["a.txt", "b.txt"] "b.txt" ∧
    clearIndexSelection = [] :=
  selection_consistent_with_docs [⟨"a.txt", 3⟩] ["a.txt", "gone.txt"]
    ["a.txt", "b.txt"] "b.txt"

/-- C9: toggling the same file name twice restores the selection as a set:
membership of every name is exactly as in the original selection (the
toggled name may only change its position). -/
theorem toggleSelected_twice_same_set
    (prev : List String) (f x : String) :
    (x ∈ toggleSelected (toggleSelected prev f) f ↔ x ∈ prev) := by
  by_cases h : f ∈ prev
  · have e1 : toggleSelected prev f = prev.filter (fun y => y ≠ f) := by
      simp [toggleSelected, List.elem_iff, h]
    have hnot : f ∉ prev.filter (fun y => y ≠ f) := by
      simp [List.mem_filter]
    have e2 : toggleSelected (prev.filter (fun y => y ≠ f)) f =
        prev.filter (fun y => y ≠ f) ++ [f] := by
      simp [toggleSelected, List.elem_iff, hnot]
    rw [e1, e2]
    by_cases hx : x = f
    · subst hx
      simp [h]
    · simp [List.mem_filter, hx]
  · have e1 : toggleSelected prev f = prev ++ [f] := by
      simp [toggleSelected, List.elem_iff, h]
    have e2 : toggleSelected (prev ++ [f]) f =
        (prev ++ [f]).filter (fun y => y ≠ f) := by
      simp [toggleSelected, List.elem_iff]
    rw [e1, e2]
    by_cases hx : x = f
    · subst hx
      simp [List.mem_filter, h]
    · simp [List.mem_filter, hx]

/-- C9 witness: toggling "b" twice on a concrete selection preserves
membership of "b". -/
theorem toggleSelected_twice_same_set_witness :
    ("b" ∈ toggleSelected (toggleSelected ["a", "b", "c"] "b") "b" ↔
      "b" ∈ ["a", "b", "c"]) :=
  toggleSelected_twice_same_set ["a", "b", "c"] "b" "b"

/-- C10: `resetChat` clears exactly the chat state — `messages`, `input`,
`uploadMsg` and the persisted chat-history key — and leaves `docs`,
`selectedFiles`, `docSearch`, `backendOk`, `chunksIndexed` and the
persisted selected-files key unchanged. -/
theorem resetChat_clears_only_chat_state
    (s : AppState) (st : LocalStorage) :
    (resetChat s st).1.messages = [] ∧
    (resetChat s st).1.input = "" ∧
    (resetChat s st).1.uploadMsg = "" ∧
    (resetChat s st).2.chatHistoryKey = none ∧
    (resetChat s st).1.docs = s.docs ∧
    (resetChat s st).1.selectedFiles = s.selectedFiles ∧
    (resetChat s st).1.docSearch = s.docSearch ∧
    (resetChat s st).1.backendOk = s.backendOk ∧
    (resetChat s st).1.chunksIndexed = s.chunksIndexed ∧
    (resetChat s st).2.selectedKey = st.selectedKey :=
  ⟨rfl, rfl, rfl, rfl, rfl, rfl, rfl, rfl, rfl, rfl⟩

/-- C10 witness at a concrete state and storage. -/
theorem resetChat_clears_only_chat_state_witness :
    (resetChat sampleState ⟨some "[]", some "[\x22a.txt\x22]"⟩).1.messages
      = [] ∧
    (resetChat sampleState
      ⟨some "[]", some "[\x22a.txt\x22]"⟩).1.selectedFiles = ["a.txt"] ∧
    (resetChat sampleState
      ⟨some "[]", some "[\x22a.txt\x22]"⟩).2.selectedKey =
        some "[\x22a.txt\x22]" := by
  have h := resetChat_clears_only_chat_state sampleState
    ⟨some "[]", some "[\x22a.txt\x22]"⟩
  exact ⟨h.1, h.2.2.2.2.2.1, h.2.2.2.2.2.2.2.2.2⟩

end RagApp
